import Mathlib

/-!
Verification of corona.py (a CLI tool that fetches a coronavirus statistics
table and news list, caches it as JSON, and prints selected fields).

This file gives a shallow embedding of the extraction-and-fallback pipeline
of `corona.py`:
  * the cell normalizer (`zero_checker`, `float_zero_checker`),
  * the row extractor and table assembler (`get_table_row`, `get_table`),
  * the news extractor (`get_news`),
  * the cache store (JSON encoding/decoding of a snapshot), and
  * the fetch orchestrator (online fetch with cache fallback, offline mode).

Machine-level details of CPython are modelled as follows: Python `int(...)`
and `float(...)` on decimal literals become `pyInt` / `pyFloat` over `Int`
and `ℚ`; `str.strip(chars)` / `str.replace` become the corresponding
list-of-char operations; `sys.exit` inside parsing becomes an `Except`
error that propagates to the top level; printed messages are collected in
a message list.
-/

/-- A normalized table cell: Python `str`, `int`, `float` (modelled as `ℚ`
since only decimal parsing and comparison occur, no float arithmetic),
or `None`. -/
inductive Value where
  | str (s : String)
  | int (n : Int)
  | float (q : ℚ)
  | null
deriving DecidableEq, Repr

/-- One extracted table row, as the Python list built in `get_table`. -/
abbrev Row := List Value

/-- Strip characters satisfying `p` from both ends of a string, as
Python `str.strip(chars)` does. -/
def stripChars (p : Char → Bool) (s : String) : String :=
  ⟨((s.data.dropWhile p).reverse.dropWhile p).reverse⟩

/-- The character set of `strip('+ \n')` used on table cells. -/
def isPlusSpaceNl (c : Char) : Bool :=
  c == '+' || c == ' ' || c == '\n'

/-- The cell-cleaning strip `row_text.text.strip('+ \n')`. -/
def stripCell (s : String) : String :=
  stripChars isPlusSpaceNl s

/-- One fuel step of left-to-right, non-overlapping substring replacement.
Fuel bounds the recursion by the input length; each step consumes at least
one character when the pattern is nonempty, so `fuel = input length` is
exact. -/
def replaceFuel (pat rep : List Char) : Nat → List Char → List Char
  | _, [] => []
  | 0, l => l
  | fuel + 1, c :: rest =>
    if pat.isPrefixOf (c :: rest) then
      rep ++ replaceFuel pat rep fuel ((c :: rest).drop pat.length)
    else
      c :: replaceFuel pat rep fuel rest

/-- Python `str.replace(pat, rep)`: replace every non-overlapping
occurrence of `pat`, scanning left to right. The pipeline only calls it
with nonempty patterns; an empty pattern leaves the string unchanged
here. -/
def pyReplace (s pat rep : String) : String :=
  if pat.data.isEmpty then s
  else ⟨replaceFuel pat.data rep.data s.data.length s.data⟩

/-- Numeric value of a list of decimal digit characters. -/
def digitsToNat (cs : List Char) : Nat :=
  cs.foldl (fun a c => a * 10 + (c.toNat - 48)) 0

/-- A nonempty all-digit character list. -/
def isDigits (cs : List Char) : Bool :=
  !cs.isEmpty && cs.all Char.isDigit

/-- Whitespace-stripped character list of a string (Python `str.strip()`
before numeric conversion). -/
def stripWsChars (s : String) : List Char :=
  ((s.data.dropWhile Char.isWhitespace).reverse.dropWhile Char.isWhitespace).reverse

/-- Python `int(s)` on decimal strings: optional surrounding whitespace,
optional sign, then a nonempty digit run; anything else raises
`ValueError`, modelled as `none`. -/
def pyInt (s : String) : Option Int :=
  match stripWsChars s with
  | '+' :: rest => if isDigits rest then some (digitsToNat rest : Int) else none
  | '-' :: rest => if isDigits rest then some (-(digitsToNat rest : Int)) else none
  | cs => if isDigits cs then some (digitsToNat cs : Int) else none

/-- Decimal body of a float literal: `digits`, `digits.digits`,
`digits.` or `.digits`. The value `ip.fp` is built as
`mkRat (digits of ip ++ fp) 10^|fp|`, which is exact. -/
def pyFloatBody (cs : List Char) : Option ℚ :=
  let ip := cs.takeWhile (fun c => c ≠ '.')
  match cs.dropWhile (fun c => c ≠ '.') with
  | [] => if isDigits ip then some (mkRat (digitsToNat ip : Int) 1) else none
  | _ :: fp =>
    if (ip.all Char.isDigit && fp.all Char.isDigit) && (!ip.isEmpty || !fp.isEmpty) then
      some (mkRat (digitsToNat (ip ++ fp) : Int) (10 ^ fp.length))
    else none

/-- Python `float(s)` on decimal literals (the only forms the pipeline
feeds it), exact over `ℚ`. -/
def pyFloat (s : String) : Option ℚ :=
  match stripWsChars s with
  | '+' :: rest => pyFloatBody rest
  | '-' :: rest => (pyFloatBody rest).map (fun q => -q)
  | cs => pyFloatBody cs

/-- `zero_checker`: `''` and `'N/A'` become `None`; otherwise `int(...)`;
a `ValueError` prints a message and calls `sys.exit(1)`, modelled as an
`Except` error carrying the offending string. -/
def zero_checker (integer_string : String) : Except String (Option Int) :=
  if integer_string = "" ∨ integer_string = "N/A" then .ok none
  else
    match pyInt integer_string with
    | some n => .ok (some n)
    | none => .error integer_string

/-- `float_zero_checker`: as `zero_checker` but through `float(...)`. -/
def float_zero_checker (float_string : String) : Except String (Option ℚ) :=
  if float_string = "" ∨ float_string = "N/A" then .ok none
  else
    match pyFloat float_string with
    | some q => .ok (some q)
    | none => .error float_string

/-- `get_table_row(row_text, length)`: index 0 and 12 keep the stripped
text; indices 8 and 9 parse as floats after removing commas; every other
index parses as an integer after removing commas. -/
def get_table_row (row_text : String) (length : Nat) : Except String Value :=
  if length = 0 ∨ length = 12 then .ok (.str (stripCell row_text))
  else if length = 8 ∨ length = 9 then
    match float_zero_checker (pyReplace (stripCell row_text) "," "") with
    | .ok none => .ok .null
    | .ok (some q) => .ok (.float q)
    | .error e => .error e
  else
    match zero_checker (pyReplace (stripCell row_text) "," "") with
    | .ok none => .ok .null
    | .ok (some n) => .ok (.int n)
    | .error e => .error e

/-- The inner loop of `get_table`: each of the first 13 `td` texts is fed
to `get_table_row` with the running length of the accumulated list as its
positional index. -/
def extractCellsFrom : List String → Nat → Except String (List Value)
  | [], _ => .ok []
  | t :: ts, i =>
    match get_table_row t i with
    | .error e => .error e
    | .ok v =>
      match extractCellsFrom ts (i + 1) with
      | .error e => .error e
      | .ok vs => .ok (v :: vs)

/-- Cell extraction for one table row (`table_row.find_all('td')[:13]`). -/
def extractCells (tds : List String) : Except String (List Value) :=
  extractCellsFrom (tds.take 13) 0

/-- One parsed HTML table row as `get_table` sees it: the texts of its
`td` cells, its `style` attribute, and its `class` attribute list. -/
structure HtmlRow where
  tds : List String
  style : Option String
  classes : List String
deriving DecidableEq, Repr

/-- Python `and` on already-computed truthiness of the left operand:
`a and b` returns `b` when `a` is truthy, else `a`. -/
def pyAnd (a b : Bool) : Bool :=
  if a then b else a

/-- Truthiness of a Python string: nonempty strings are truthy. -/
def strTruthy (s : String) : Bool :=
  !(s == "")

/-- The `State` cell appended from the row's `style` attribute
(`'Recovered'`, `'Outcome'`, or `None`). -/
def rowStateMark (style : Option String) : Value :=
  if style = some "background-color:#EAF7D5" then .str "Recovered"
  else if style = some "background-color:#F0F0F0" then .str "Outcome"
  else .null

/-- The `Class` cell appended from the row's `class` attribute. The
source condition is `'total_row' and 'row_continent' in classes`, which
Python evaluates as `('total_row') and ('row_continent' in classes)`:
the string literal is truthy, so only membership of `'row_continent'`
decides the mark. -/
def rowClassMark (classes : List String) : Value :=
  if pyAnd (strTruthy "total_row") (classes.contains "row_continent") then .str "Total"
  else .null

/-- The row loop of `get_table`: extract up to 13 cells per row, skip
rows with no cells, and append the `State` and `Class` marks. A cell
parse failure aborts the whole extraction (`sys.exit(1)`). -/
def processRows : List HtmlRow → Except String (List Row)
  | [] => .ok []
  | r :: rs =>
    match extractCells r.tds with
    | .error e => .error e
    | .ok cells =>
      match processRows rs with
      | .error e => .error e
      | .ok rest =>
        if cells.isEmpty then .ok rest
        else .ok ((cells ++ [rowStateMark r.style, rowClassMark r.classes]) :: rest)

/-- Sort key of the `Cases` column: position 1 of a row, as a rational;
missing or non-numeric entries give `none` (pandas `NaN`). -/
def casesKey (row : Row) : Option ℚ :=
  match row.get? 1 with
  | some (.int n) => some (mkRat n 1)
  | some (.float q) => some q
  | _ => none

/-- Comparison used for sorting, with `none` (`NaN`) as bottom so the
relation is total and transitive on all rows; `sortRows` only ever
compares rows whose key is present. -/
def keyLe (key : Row → Option ℚ) (a b : Row) : Bool :=
  match key a, key b with
  | none, _ => true
  | some _, none => false
  | some x, some y => decide (x ≤ y)

/-- The sort relation of a `sort_values` call: ascending compares keys
upward, descending downward. -/
abbrev rowRel (key : Row → Option ℚ) (ascending : Bool) (a b : Row) : Prop :=
  (if ascending then keyLe key a b else keyLe key b a) = true

/-- pandas `DataFrame.sort_values(by=key, ascending=..., na_position=...)`:
rows whose key is missing are taken out, the rest are sorted by the key in
the requested direction, and the missing-key rows are reattached at the
requested end (`'first'` or `'last'`). -/
def sortRows (key : Row → Option ℚ) (ascending naFirst : Bool) (rows : List Row) : List Row :=
  let nulls := rows.filter fun r => (key r).isNone
  let nonNulls := rows.filter fun r => (key r).isSome
  let sorted := nonNulls.insertionSort (rowRel key ascending)
  if naFirst then nulls ++ sorted else sorted ++ nulls

/-- The two ways `get_table` can fail: a `ValueError` inside
`int(...)`/`float(...)` (printed, then `sys.exit(1)`), or the pandas
`ValueError` of the `DataFrame` constructor when the data width does not
match the 15 declared columns (uncaught, so the process crashes). Both
terminate the invocation with a nonzero status before anything is
cached. -/
inductive TableError where
  | parse (cell : String)
  | width (n : Nat)
deriving DecidableEq, Repr

/-- Width of the widest extracted row, which pandas takes as the column
count of list-of-list data. -/
def maxWidth (lists : List Row) : Nat :=
  lists.foldr (fun r m => max r.length m) 0

/-- pandas' padding of a shorter row with `None` up to the data width. -/
def padTo (n : Nat) (row : Row) : Row :=
  row ++ List.replicate (n - row.length) Value.null

/-- The `DataFrame(online_outbreak_list, columns=[...15 names...])`
constructor of lines 181-185: with list-of-list data the widest row must
match the declared column count (15, i.e. 13 `td` cells plus the two
appended marks) or pandas raises `ValueError: 15 columns passed, passed
data had N columns`; shorter rows are padded with `None`; an empty data
list builds an empty frame without error. -/
def dataFrame15 (lists : List Row) : Except TableError (List Row) :=
  if lists.isEmpty then .ok []
  else if maxWidth lists = 15 then .ok (lists.map (padTo 15))
  else .error (.width (maxWidth lists))

/-- `get_table`: extract all rows, build the 15-column `DataFrame`
(validating the width), then `sort_values(by='Cases', ascending=False)`
(with pandas' default `na_position='last'`). -/
def get_table (rows : List HtmlRow) : Except TableError (List Row) :=
  match processRows rows with
  | .error e => .error (.parse e)
  | .ok lists =>
    match dataFrame15 lists with
    | .error e => .error e
    | .ok padded => .ok (sortRows casesKey false false padded)

/-- What the terminal shows for each failure mode: the offending cell
for a parse error (followed by `sys.exit(1)`), the interpreter traceback
text for the uncaught pandas width error. -/
def tableErrorText : TableError → String
  | .parse s => s
  | .width n => "ValueError: 15 columns passed, passed data had " ++ toString n ++ " columns"

/-- `total_row = table.iloc[0].values`: the first row of the assembled
table (`none` when the table is empty, where `iloc[0]` would raise). -/
def total_row (tbl : List Row) : Option Row :=
  tbl.get? 0

/-- One `li` element of the news fragment: its text and whether it
contains the `img alt='alert'` marker. -/
structure NewsLi where
  text : String
  alert : Bool
deriving DecidableEq, Repr

/-- The `clean_list` replacement dictionary of `get_news`, in insertion
order. -/
def cleanPairs : List (String × String) :=
  [("[source]", ""), ("[video]", ""), ("  ", ""), (" .", ".")]

/-- Apply the `clean_list` replacements left to right. -/
def cleanNews (s : String) : String :=
  cleanPairs.foldl (fun t p => pyReplace t p.1 p.2) s

/-- Processing of one news entry in `get_news`: replace nonbreaking
spaces, strip, prefix alert-marked entries with the warning sign, then
apply the cleaning replacements. -/
def newsItemText (li : NewsLi) : String :=
  let base := stripChars Char.isWhitespace (pyReplace li.text "\u00A0" " ")
  cleanNews (if li.alert then "⚠ " ++ base else base)

/-- `get_news`: the entries of the news fragment in source order. -/
def get_news : List NewsLi → List String
  | [] => []
  | li :: rest => newsItemText li :: get_news rest

/-- The cached document: fetch timestamp (minute precision), the news
list, and the assembled table. -/
structure Snapshot where
  time : String
  news : List String
  table : List Row
deriving DecidableEq, Repr

/-- The parsed response page: the statistics table rows and, when
present, the news fragment for today's date (absence raises
`AttributeError` in `get_news`, caught by the caller). -/
structure Soup where
  tableRows : List HtmlRow
  newsDiv : Option (List NewsLi)
deriving DecidableEq, Repr

/-- Outcome of the single network attempt: a parsed response, or a
`requests.exceptions.ConnectionError`. -/
inductive NetResult where
  | success (soup : Soup)
  | connectionError
deriving DecidableEq, Repr

/-- Result of `get_online_outbreak_data`: a fresh snapshot, `None`
(connectivity failure), or a `sys.exit` raised while parsing. -/
inductive FetchResult where
  | data (snap : Snapshot)
  | noData
  | exited (code : Nat)
deriving DecidableEq, Repr

/-- `get_online_outbreak_data` together with its effects: the returned
value, the cache file afterwards, and the printed messages. -/
structure OnlineResult where
  result : FetchResult
  cacheAfter : Option Snapshot
  messages : List String
deriving DecidableEq, Repr

/-- `get_online_outbreak_data`: on a connectivity error print a notice
and return `None` leaving the cache alone; otherwise parse the table
(a cell parse failure exits before anything is cached), parse the news
(missing fragment gives an empty list), build the snapshot, write it to
the cache file, and return it. -/
def get_online_outbreak_data (net : NetResult) (cache : Option Snapshot) (now : String) :
    OnlineResult :=
  match net with
  | .connectionError =>
    ⟨.noData, cache, ["Network issue detected. Accessing offline data instead."]⟩
  | .success soup =>
    match get_table soup.tableRows with
    | .error e => ⟨.exited 1, cache, [tableErrorText e]⟩
    | .ok tbl =>
      let news_table := match soup.newsDiv with
        | none => []
        | some lis => get_news lis
      let snap : Snapshot := ⟨now, news_table, tbl⟩
      ⟨.data snap, some snap, []⟩

/-- `get_offline_outbreak_data`: load the cache file; on a hit report
the stored timestamp, on `FileNotFoundError` report the absence and
return `None`. -/
def get_offline_outbreak_data (cache : Option Snapshot) : Option Snapshot × List String :=
  match cache with
  | some snap => (some snap, ["Offline data is from " ++ snap.time ++ "."])
  | none => (none, ["No offline data found."])

/-- Observable outcome of the top-level dispatch (module lines 273-280):
whether a network attempt was made, the dataset handed to the rest of
the program, the early exit status if any, the cache file afterwards,
and the printed messages. -/
structure RunResult where
  attemptedNetwork : Bool
  outcome : Option Snapshot
  exitCode : Option Nat
  cacheAfter : Option Snapshot
  messages : List String
deriving DecidableEq, Repr

/-- The fetch orchestrator: forced-offline mode reads only the cache;
online-first mode tries the network and falls back to the cache
(`get_online_outbreak_data() or get_offline_outbreak_data()`); a `None`
dataset exits with status 1. -/
def run_main (offline : Bool) (net : NetResult) (cache : Option Snapshot) (now : String) :
    RunResult :=
  if offline then
    match get_offline_outbreak_data cache with
    | (some snap, msgs) => ⟨false, some snap, none, cache, msgs⟩
    | (none, msgs) => ⟨false, none, some 1, cache, msgs⟩
  else
    let onl := get_online_outbreak_data net cache now
    match onl.result with
    | .exited c => ⟨true, none, some c, onl.cacheAfter, onl.messages⟩
    | .data snap => ⟨true, some snap, none, onl.cacheAfter, onl.messages⟩
    | .noData =>
      match get_offline_outbreak_data onl.cacheAfter with
      | (some snap, msgs) => ⟨true, some snap, none, onl.cacheAfter, onl.messages ++ msgs⟩
      | (none, msgs) => ⟨true, none, some 1, onl.cacheAfter, onl.messages ++ msgs⟩

/-- A JSON document, the shape both `json.dump`/`json.load` and pandas
`to_json`/`read_json` exchange. The textual layer (serializing this tree
to characters and parsing it back) is faithful in both libraries and is
modelled as the identity on this tree. -/
inductive Json where
  | null
  | str (s : String)
  | num (q : ℚ)
  | arr (xs : List Json)
  | obj (fields : List (String × Json))

/-- JSON encoding of one table cell: Python `None` becomes `null`,
numbers become JSON numbers (losing the int/float tag, as JSON does),
strings stay strings. -/
def encodeValue : Value → Json
  | .str s => .str s
  | .int n => .num (mkRat n 1)
  | .float q => .num q
  | .null => .null

/-- Reading a JSON value back: a whole number comes back as an `int`,
any other number as a `float`. -/
def decodeValue : Json → Option Value
  | .null => some .null
  | .str s => some (.str s)
  | .num q => some (if q.den = 1 then .int q.num else .float q)
  | _ => none

/-- The cell a serialize-deserialize round trip produces: a `float`
with a whole value comes back as the equal `int`; everything else is
untouched. -/
def canonValue : Value → Value
  | .float q => if q.den = 1 then .int q.num else .float q
  | v => v

def decodeValues : List Json → Option (List Value)
  | [] => some []
  | j :: js =>
    match decodeValue j, decodeValues js with
    | some v, some vs => some (v :: vs)
    | _, _ => none

def encodeRow (row : Row) : Json :=
  .arr (row.map encodeValue)

def decodeRow : Json → Option Row
  | .arr cells => decodeValues cells
  | _ => none

def decodeRowList : List Json → Option (List Row)
  | [] => some []
  | j :: js =>
    match decodeRow j, decodeRowList js with
    | some r, some rs => some (r :: rs)
    | _, _ => none

def decodeStrList : List Json → Option (List String)
  | [] => some []
  | .str s :: js =>
    match decodeStrList js with
    | some ss => some (s :: ss)
    | none => none
  | _ => none

/-- The cache store write: `json.dump` of
`{'time': ..., 'news': [...], 'table': <table as JSON>}` as in
`get_online_outbreak_data`. -/
def cache_save (snap : Snapshot) : Json :=
  .obj [("time", .str snap.time),
        ("news", .arr (snap.news.map .str)),
        ("table", .arr (snap.table.map encodeRow))]

/-- The cache store read: `json.load` of the cached document followed by
`read_json` of the embedded table, as in `get_offline_outbreak_data`
and the `table = read_json(outbreak_data['table'])` line. -/
def cache_load : Json → Option Snapshot
  | .obj [("time", .str t), ("news", .arr ns), ("table", .arr rs)] =>
    match decodeStrList ns, decodeRowList rs with
    | some news, some tbl => some ⟨t, news, tbl⟩
    | _, _ => none
  | _ => none

/-- Numeric-value equivalence of cells: equal nulls, equal strings, and
numerically equal numbers (an `int` and a `float` of the same rational
value are equivalent; null is never equivalent to zero). -/
def valueEquiv : Value → Value → Bool
  | .null, .null => true
  | .str a, .str b => a == b
  | .int a, .int b => a == b
  | .int a, .float b => mkRat a 1 == b
  | .float a, .int b => a == mkRat b 1
  | .float a, .float b => a == b
  | _, _ => false

def rowEquiv (a b : Row) : Bool :=
  a.length == b.length && (a.zip b).all fun p => valueEquiv p.1 p.2

def tableEquiv (a b : List Row) : Bool :=
  a.length == b.length && (a.zip b).all fun p => rowEquiv p.1 p.2

/-- Snapshot equivalence as §3 asks: same timestamp, identical news list
(order and alert markers included), and a table with the same rows and
entity keys whose cells are numerically equal with nulls preserved. -/
def snapEquiv (a b : Snapshot) : Bool :=
  a.time == b.time && a.news == b.news && tableEquiv a.table b.table

/-- The sort of the full-table view (module lines 474-485):
`na_position = 'first' if ascending else 'last'`, so the missing-value
end is tied to the direction. -/
def table_print_sort (key : Row → Option ℚ) (ascending : Bool) (rows : List Row) : List Row :=
  sortRows key ascending ascending rows

theorem keyLe_total (key : Row → Option ℚ) (a b : Row) :
    keyLe key a b = true ∨ keyLe key b a = true := by
  unfold keyLe
  rcases key a with _ | x
  · left; rfl
  · rcases key b with _ | y
    · right; rfl
    · rcases le_total x y with h | h
      · left; exact decide_eq_true h
      · right; exact decide_eq_true h

theorem keyLe_trans (key : Row → Option ℚ) (a b c : Row)
    (hab : keyLe key a b = true) (hbc : keyLe key b c = true) :
    keyLe key a c = true := by
  unfold keyLe at *
  rcases ha : key a with _ | x <;> rcases hb : key b with _ | y <;> rcases hc : key c with _ | z <;>
      simp_all
  exact le_trans hab hbc

theorem keyLe_refl (key : Row → Option ℚ) (a : Row) : keyLe key a a = true := by
  unfold keyLe
  rcases key a with _ | x
  · rfl
  · exact decide_eq_true le_rfl

/-- Claim C2: for raw cell text `""` or `"N/A"`, both the integer-kind and the
float-kind cell normalizer return `None` (`null`), never zero. -/
theorem cell_normalizer_empty_and_na_yield_null :
    zero_checker "" = .ok none ∧ zero_checker "N/A" = .ok none ∧
    float_zero_checker "" = .ok none ∧ float_zero_checker "N/A" = .ok none ∧
    (Except.ok none : Except String (Option Int)) ≠ .ok (some 0) ∧
    (Except.ok none : Except String (Option ℚ)) ≠ .ok (some 0) := by
  refine ⟨rfl, rfl, rfl, rfl, by simp, by simp⟩

/-- Claim C3: extracting the ten-cell raw row for "Testland" yields the typed
record: commas and leading `+` are stripped, indices 8 and 9 parse as
floats, the `"N/A"` cell becomes `null`, the other numeric cells parse
as integers. -/
theorem testland_row_extraction :
    extractCells ["Testland", "1,200", "+50", "10", "0", "900", "290", "5", "120.5", "N/A"] =
      .ok [.str "Testland", .int 1200, .int 50, .int 10, .int 0,
           .int 900, .int 290, .int 5, .float (mkRat 241 2), .null] := by
  rfl

theorem decodeValue_encodeValue (v : Value) :
    decodeValue (encodeValue v) = some (canonValue v) := by
  cases v with
  | str s => rfl
  | null => rfl
  | float q => simp [encodeValue, decodeValue, canonValue]
  | int n =>
    simp only [encodeValue, decodeValue, canonValue, Rat.mkRat_one]
    rw [if_pos (Rat.den_intCast n), Rat.num_intCast]

theorem valueEquiv_canon (v : Value) : valueEquiv v (canonValue v) = true := by
  cases v with
  | str s => simp [canonValue, valueEquiv]
  | null => rfl
  | int n => simp [canonValue, valueEquiv]
  | float q =>
    by_cases h : q.den = 1
    · simp only [canonValue, if_pos h, valueEquiv]
      rw [Rat.mkRat_one]
      exact beq_iff_eq.mpr ((Rat.den_eq_one_iff q).mp h).symm
    · simp [canonValue, if_neg h, valueEquiv]

theorem decodeValues_map (row : Row) :
    decodeValues (row.map encodeValue) = some (row.map canonValue) := by
  induction row with
  | nil => rfl
  | cons v vs ih => simp [decodeValues, decodeValue_encodeValue, ih]

theorem decodeRowList_map (tbl : List Row) :
    decodeRowList (tbl.map encodeRow) = some (tbl.map (List.map canonValue)) := by
  induction tbl with
  | nil => rfl
  | cons r rs ih => simp [decodeRowList, decodeRow, encodeRow, decodeValues_map, ih]

theorem decodeStrList_map (ns : List String) :
    decodeStrList (ns.map .str) = some ns := by
  induction ns with
  | nil => rfl
  | cons s ss ih => simp [decodeStrList, ih]

theorem rowEquiv_canon (row : Row) :
    rowEquiv row (row.map canonValue) = true := by
  induction row with
  | nil => rfl
  | cons v vs ih =>
    simp only [rowEquiv, List.map_cons, List.length_cons, List.length_map, List.zip_cons_cons,
      List.all_cons, valueEquiv_canon, Bool.true_and] at ih ⊢
    simpa using ih

theorem tableEquiv_canon (tbl : List Row) :
    tableEquiv tbl (tbl.map (List.map canonValue)) = true := by
  induction tbl with
  | nil => rfl
  | cons r rs ih =>
    simp only [tableEquiv, List.map_cons, List.length_cons, List.length_map, List.zip_cons_cons,
      List.all_cons, rowEquiv_canon, Bool.true_and] at ih ⊢
    simpa using ih

/-- Claim C7: a cache store round trip reproduces an equivalent snapshot: the
load succeeds, the timestamp and the news list (order and content) come
back identical, and every table row comes back with the same entity key
and numerically equal cells, nulls staying null. -/
theorem cache_store_round_trip (snap : Snapshot) :
    cache_load (cache_save snap) =
      some ⟨snap.time, snap.news, snap.table.map (List.map canonValue)⟩ ∧
    snapEquiv snap ⟨snap.time, snap.news, snap.table.map (List.map canonValue)⟩ = true := by
  constructor
  · simp [cache_save, cache_load, decodeStrList_map, decodeRowList_map]
  · simp [snapEquiv, tableEquiv_canon]

/-- Claim C1: in online-first mode, when the network fetch raises a
connectivity error and a cache exists, the orchestrator returns the
cached snapshot (instead of failing), leaves the cache untouched, and
prints the staleness message carrying the cached timestamp. -/
theorem network_failure_falls_back_to_cache (snap : Snapshot) (now : String) :
    run_main false .connectionError (some snap) now =
      ⟨true, some snap, none, some snap,
       ["Network issue detected. Accessing offline data instead.",
        "Offline data is from " ++ snap.time ++ "."]⟩ := rfl

/-- Claim C8: in forced-offline mode with no cache file, no network attempt is
made, the cache-missing condition is reported, and the process exits
with status 1. -/
theorem offline_mode_without_cache_exits (net : NetResult) (now : String) :
    run_main true net none now =
      ⟨false, none, some 1, none, ["No offline data found."]⟩ := rfl

theorem extractCellsFrom_error_of_cell (l : List String) (i : Nat)
    (h : ∃ j cell e, l.get? j = some cell ∧ get_table_row cell (i + j) = .error e) :
    ∃ e2, extractCellsFrom l i = .error e2 := by
  induction l generalizing i with
  | nil =>
    obtain ⟨j, cell, e, hget, _⟩ := h
    simp at hget
  | cons t ts ih =>
    obtain ⟨j, cell, e, hget, herr⟩ := h
    cases j with
    | zero =>
      obtain rfl : t = cell := by simpa using hget
      rw [Nat.add_zero] at herr
      exact ⟨e, by simp [extractCellsFrom, herr]⟩
    | succ k =>
      cases hg : get_table_row t i with
      | error e2 => exact ⟨e2, by simp [extractCellsFrom, hg]⟩
      | ok v =>
        obtain ⟨e2, he2⟩ := ih (i + 1)
          ⟨k, cell, e, by simpa using hget, by rw [show i + 1 + k = i + (k + 1) by omega]; exact herr⟩
        exact ⟨e2, by simp [extractCellsFrom, hg, he2]⟩

theorem processRows_error_of_row (rows : List HtmlRow)
    (h : ∃ r ∈ rows, ∃ e, extractCells r.tds = .error e) :
    ∃ e2, processRows rows = .error e2 := by
  induction rows with
  | nil =>
    obtain ⟨r, hr, _⟩ := h
    simp at hr
  | cons r rs ih =>
    obtain ⟨r2, hr2, e, he⟩ := h
    rcases List.mem_cons.mp hr2 with rfl | hmem
    · exact ⟨e, by simp [processRows, he]⟩
    · cases hx : extractCells r.tds with
      | error e2 => exact ⟨e2, by simp [processRows, hx]⟩
      | ok cells =>
        obtain ⟨e2, he2⟩ := ih ⟨r2, hmem, e, he⟩
        exact ⟨e2, by simp [processRows, hx, he2]⟩

theorem get_table_error_of_cell (rows : List HtmlRow)
    (h : ∃ r ∈ rows, ∃ j cell e,
      (r.tds.take 13).get? j = some cell ∧ get_table_row cell j = .error e) :
    ∃ e2, get_table rows = .error e2 := by
  obtain ⟨r, hr, j, cell, e, hget, herr⟩ := h
  have hcells : ∃ e2, extractCells r.tds = .error e2 :=
    extractCellsFrom_error_of_cell (r.tds.take 13) 0 ⟨j, cell, e, hget, by simpa using herr⟩
  obtain ⟨e2, he2⟩ := processRows_error_of_row rows ⟨r, hr, hcells⟩
  exact ⟨.parse e2, by simp [get_table, he2]⟩

/-- Claim C9: when some numeric cell of the fetched table fails to parse after
cleaning, the fetch attempt terminates fatally (`sys.exit(1)` reaches
the top) and the cache file is left exactly as it was: no snapshot, not
even a partial one, is written in that invocation. -/
theorem parse_failure_fatal_no_cache_write (soup : Soup) (cache : Option Snapshot) (now : String)
    (h : ∃ r ∈ soup.tableRows, ∃ j cell e,
      (r.tds.take 13).get? j = some cell ∧ get_table_row cell j = .error e) :
    (run_main false (.success soup) cache now).exitCode = some 1 ∧
    (run_main false (.success soup) cache now).cacheAfter = cache ∧
    (run_main false (.success soup) cache now).outcome = none := by
  obtain ⟨e2, he2⟩ := get_table_error_of_cell soup.tableRows h
  refine ⟨?_, ?_, ?_⟩ <;> simp [run_main, get_online_outbreak_data, he2]

/-- Concrete instance for the fatal-parse property: a page whose second
`Cases` cell reads `"abc"`. -/
theorem parse_failure_fatal_no_cache_write_witness :
    (run_main false (.success ⟨[⟨["X", "abc"], none, []⟩], none⟩) none "t").exitCode = some 1 ∧
    (run_main false (.success ⟨[⟨["X", "abc"], none, []⟩], none⟩) none "t").cacheAfter = none ∧
    (run_main false (.success ⟨[⟨["X", "abc"], none, []⟩], none⟩) none "t").outcome = none :=
  parse_failure_fatal_no_cache_write ⟨[⟨["X", "abc"], none, []⟩], none⟩ none "t"
    ⟨⟨["X", "abc"], none, []⟩, by simp, 1, "abc", "abc", rfl, rfl⟩

/-- Refutation of C4 as stated: a record set whose only row is a full
13-cell row carrying the source's `total_row` marker assembles into a
table without any failure (the width check passes and nothing counts the
marked rows), and that row is not marked (`Class` is null) — while a row
with class `row_continent` is the one that gets marked. Zero
total-marked rows do not make assembly fail. -/
theorem total_marking_counterexample :
    get_table [⟨["World", "100", "5", "2", "0", "50", "48", "1", "3.0", "0.1",
                 "1000", "10", "All"], none, ["total_row"]⟩] =
      .ok [[.str "World", .int 100, .int 5, .int 2, .int 0, .int 50, .int 48, .int 1,
            .float (mkRat 3 1), .float (mkRat 1 10), .int 1000, .int 10, .str "All",
            .null, .null]] ∧
    rowClassMark ["total_row"] = .null ∧
    rowClassMark ["row_continent"] = .str "Total" :=
  ⟨rfl, rfl, rfl⟩

/-- Claim C4 amended: a row is marked `'Total'` exactly when its class list
contains `'row_continent'` (the `'total_row'` conjunct of the source
condition is a truthy string literal with no effect), and table assembly
validates only that every cell parses and that the widest row fills the
15 declared columns (13 `td` cells): it never checks how many rows are
marked and succeeds alike with zero, one, or many marked rows. -/
theorem total_marking_amended (rows : List HtmlRow) (rs padded : List Row)
    (h : processRows rows = .ok rs) (hw : dataFrame15 rs = .ok padded) :
    get_table rows = .ok (sortRows casesKey false false padded) ∧
    ∀ r : HtmlRow, (rowClassMark r.classes = .str "Total" ↔ "row_continent" ∈ r.classes) := by
  constructor
  · simp [get_table, h, hw]
  · intro r
    by_cases hc : "row_continent" ∈ r.classes
    · simp [rowClassMark, pyAnd, strTruthy, hc]
    · simp [rowClassMark, pyAnd, strTruthy, hc]

/-- Concrete instance of the amended total-marking property. -/
theorem total_marking_amended_witness :
    get_table [⟨["World", "100", "5", "2", "0", "50", "48", "1", "3.0", "0.1",
                 "1000", "10", "All"], none, ["total_row"]⟩] =
      .ok (sortRows casesKey false false
        [[.str "World", .int 100, .int 5, .int 2, .int 0, .int 50, .int 48, .int 1,
          .float (mkRat 3 1), .float (mkRat 1 10), .int 1000, .int 10, .str "All",
          .null, .null]]) ∧
    (rowClassMark ["total_row"] = .str "Total" ↔
      "row_continent" ∈ (["total_row"] : List String)) := by
  have h := total_marking_amended
    [⟨["World", "100", "5", "2", "0", "50", "48", "1", "3.0", "0.1",
       "1000", "10", "All"], none, ["total_row"]⟩]
    [[.str "World", .int 100, .int 5, .int 2, .int 0, .int 50, .int 48, .int 1,
      .float (mkRat 3 1), .float (mkRat 1 10), .int 1000, .int 10, .str "All",
      .null, .null]]
    [[.str "World", .int 100, .int 5, .int 2, .int 0, .int 50, .int 48, .int 1,
      .float (mkRat 3 1), .float (mkRat 1 10), .int 1000, .int 10, .str "All",
      .null, .null]] rfl rfl
  exact ⟨h.1, h.2 ⟨[], none, ["total_row"]⟩⟩

/-- Refutation of C5 as stated: the extractor itself prefixes the
alert-marked entry's text with the warning marker; the first returned
text is not the merely noise-cleaned text. -/
theorem news_alert_prefix_counterexample :
    get_news [⟨"Virus spreads. [source]", true⟩, ⟨"All calm. [video]", false⟩] =
      ["⚠ Virus spreads. ", "All calm. "] ∧
    ("⚠ Virus spreads. " : String) ≠ "Virus spreads. " :=
  ⟨rfl, by decide⟩

theorem pyReplace_keeps_head (s pat rep : String) (c : Char) (hc : s.data.head? = some c)
    (hpat : pat.data.head? ≠ some c) :
    (pyReplace s pat rep).data.head? = some c := by
  unfold pyReplace
  by_cases hp : pat.data.isEmpty = true
  · simpa [hp] using hc
  · rcases hs : s.data with _ | ⟨c2, rest⟩
    · rw [hs] at hc; simp at hc
    · rw [hs] at hc
      obtain rfl : c = c2 := by simpa using hc.symm
      have hnp : pat.data.isPrefixOf (c :: rest) = false := by
        rcases hq : pat.data with _ | ⟨p, ps⟩
        · rw [hq] at hp; simp at hp
        · rw [hq] at hpat
          have hne : ¬ p = c := fun hpc => hpat (by simp [hpc])
          simp [List.isPrefixOf, hne]
      simp only [hp, if_false, hs, List.length_cons]
      simp [replaceFuel, hnp]

theorem cleanNews_keeps_warn_head (s : String) (h : s.data.head? = some '⚠') :
    (cleanNews s).data.head? = some '⚠' := by
  have h1 := pyReplace_keeps_head s "[source]" "" '⚠' h (by decide)
  have h2 := pyReplace_keeps_head _ "[video]" "" '⚠' h1 (by decide)
  have h3 := pyReplace_keeps_head _ "  " "" '⚠' h2 (by decide)
  have h4 := pyReplace_keeps_head _ " ." "." '⚠' h3 (by decide)
  simpa [cleanNews, cleanPairs] using h4

theorem warn_prefix_head (t : String) : ("⚠ " ++ t).data.head? = some '⚠' := by
  rw [String.data_append]
  rfl

/-- Claim C5 amended: the extractor returns the entries in source order, each
entry being the noise-cleaned text; an entry whose markup carries the
alert indicator has its text prefixed with `'⚠ '` by the extractor
itself (there is no separate boolean flag), so alert entries begin with
the warning character after cleaning. -/
theorem news_extractor_amended (lis : List NewsLi) :
    get_news lis = lis.map newsItemText ∧
    ∀ li : NewsLi, li.alert = true → (newsItemText li).data.head? = some '⚠' := by
  constructor
  · induction lis with
    | nil => rfl
    | cons li rest ih => simp [get_news, ih]
  · intro li h
    have hrw : newsItemText li =
        cleanNews ("⚠ " ++ stripChars Char.isWhitespace (pyReplace li.text "\u00A0" " ")) := by
      simp [newsItemText, h]
    rw [hrw]
    exact cleanNews_keeps_warn_head _ (warn_prefix_head _)

/-- Concrete instance of the amended news-extractor property. -/
theorem news_extractor_amended_witness :
    get_news [⟨"A", true⟩] = [newsItemText ⟨"A", true⟩] ∧
    (newsItemText ⟨"A", true⟩).data.head? = some '⚠' :=
  ⟨(news_extractor_amended [⟨"A", true⟩]).1,
   (news_extractor_amended [⟨"A", true⟩]).2 ⟨"A", true⟩ rfl⟩

/-- Refutation of C6 as stated: with one null-keyed and one valued row,
ascending order puts the null row first while descending order puts the
same row last — the end at which nulls land depends on the direction. -/
theorem null_sort_end_counterexample :
    table_print_sort casesKey true [[.str "A", .null], [.str "B", .int 5]] =
      [[.str "A", .null], [.str "B", .int 5]] ∧
    table_print_sort casesKey false [[.str "A", .null], [.str "B", .int 5]] =
      [[.str "B", .int 5], [.str "A", .null]] ∧
    ([.str "A", Value.null] : Row) ≠ [.str "B", .int 5] :=
  ⟨rfl, rfl, by decide⟩

theorem mem_sorted_isSome (key : Row → Option ℚ) (asc : Bool) (rows : List Row) (a : Row)
    (ha : a ∈ (rows.filter fun r => (key r).isSome).insertionSort (rowRel key asc)) :
    (key a).isSome = true := by
  rw [List.mem_insertionSort] at ha
  exact (List.mem_filter.mp ha).2

/-- Claim C6 amended: nulls are excluded from the comparison key and placed at
the end `na_position` selects, but that end is tied to the direction:
ascending puts all null-keyed rows first (they form a prefix), while
descending puts them last (they form a suffix). -/
theorem null_sort_end_amended (key : Row → Option ℚ) (rows : List Row) :
    (table_print_sort key true rows).Pairwise
      (fun a b => (key b).isNone = true → (key a).isNone = true) ∧
    (table_print_sort key false rows).Pairwise
      (fun a b => (key a).isNone = true → (key b).isNone = true) := by
  constructor
  · show ((rows.filter fun r => (key r).isNone) ++
        (rows.filter fun r => (key r).isSome).insertionSort (rowRel key true)).Pairwise _
    refine List.pairwise_append.mpr ⟨?_, ?_, ?_⟩
    · exact List.pairwise_of_forall_mem_list fun a ha b hb hbn => (List.mem_filter.mp ha).2
    · refine List.pairwise_of_forall_mem_list fun a ha b hb hbn => ?_
      have hsb := mem_sorted_isSome key true rows b hb
      rw [Option.isNone_iff_eq_none] at hbn
      rw [hbn] at hsb
      simp at hsb
    · intro a ha b hb hbn
      exact (List.mem_filter.mp ha).2
  · show ((rows.filter fun r => (key r).isSome).insertionSort (rowRel key false) ++
        (rows.filter fun r => (key r).isNone)).Pairwise _
    refine List.pairwise_append.mpr ⟨?_, ?_, ?_⟩
    · refine List.pairwise_of_forall_mem_list fun a ha b hb han => ?_
      have hsa := mem_sorted_isSome key false rows a ha
      rw [Option.isNone_iff_eq_none] at han
      rw [han] at hsa
      simp at hsa
    · exact List.pairwise_of_forall_mem_list fun a ha b hb han => (List.mem_filter.mp hb).2
    · intro a ha b hb han
      exact (List.mem_filter.mp hb).2

/-- Concrete instance of the amended null-placement property. -/
theorem null_sort_end_amended_witness :
    (table_print_sort casesKey true [[.str "A", .null], [.str "B", .int 5]]).Pairwise
      (fun a b => (casesKey b).isNone = true → (casesKey a).isNone = true) ∧
    (table_print_sort casesKey false [[.str "A", .null], [.str "B", .int 5]]).Pairwise
      (fun a b => (casesKey a).isNone = true → (casesKey b).isNone = true) :=
  ⟨(null_sort_end_amended casesKey [[.str "A", .null], [.str "B", .int 5]]).1,
   (null_sort_end_amended casesKey [[.str "A", .null], [.str "B", .int 5]]).2⟩

theorem keyLe_none_left (key : Row → Option ℚ) (a b : Row) (h : key b = none) :
    keyLe key b a = true := by
  unfold keyLe
  rw [h]

/-- Claim C10: `get_table` returns the rows sorted by the `Cases` column in
descending order (missing values last), and `total_row` — the record
every single-field query falls back to — is simply the first row of
that sorted table, i.e. a row whose `Cases` value is maximal; the total
marker plays no part in its selection. -/
theorem get_table_sorted_total (rows : List HtmlRow) (tbl : List Row)
    (h : get_table rows = .ok tbl) :
    tbl.Pairwise (fun a b => keyLe casesKey b a = true) ∧
    total_row tbl = tbl.head? ∧
    ∀ r ∈ tbl, ∀ hd ∈ total_row tbl, keyLe casesKey r hd = true := by
  have hex : ∃ rs2, tbl = sortRows casesKey false false rs2 := by
    cases hp : processRows rows with
    | error e =>
      simp [get_table, hp] at h
    | ok lists =>
      cases hd : dataFrame15 lists with
      | error e =>
        simp [get_table, hp, hd] at h
      | ok padded =>
        simp [get_table, hp, hd] at h
        exact ⟨padded, h.symm⟩
  obtain ⟨rs, rfl⟩ := hex
  have hpw : (sortRows casesKey false false rs).Pairwise
      (fun a b => keyLe casesKey b a = true) := by
    haveI : IsTotal Row (rowRel casesKey false) := ⟨fun a b => keyLe_total casesKey b a⟩
    haveI : IsTrans Row (rowRel casesKey false) :=
      ⟨fun a b c hab hbc => keyLe_trans casesKey c b a hbc hab⟩
    show ((rs.filter fun r => (casesKey r).isSome).insertionSort (rowRel casesKey false) ++
        (rs.filter fun r => (casesKey r).isNone)).Pairwise _
    refine List.pairwise_append.mpr ⟨?_, ?_, ?_⟩
    · exact List.sorted_insertionSort (rowRel casesKey false)
        (rs.filter fun r => (casesKey r).isSome)
    · exact List.pairwise_of_forall_mem_list fun a ha b hb =>
        keyLe_none_left casesKey a b
          (Option.isNone_iff_eq_none.mp (List.mem_filter.mp hb).2)
    · intro a ha b hb
      exact keyLe_none_left casesKey a b
        (Option.isNone_iff_eq_none.mp (List.mem_filter.mp hb).2)
  refine ⟨hpw, ?_, ?_⟩
  · cases sortRows casesKey false false rs <;> rfl
  · rcases hsr : sortRows casesKey false false rs with _ | ⟨hd, t⟩
    · intro r hr
      simp at hr
    · intro r hr hd2 hhd2
      rw [hsr] at hpw
      obtain rfl : hd2 = hd := by simpa [total_row] using hhd2.symm
      rcases List.mem_cons.mp hr with rfl | hmem
      · exact keyLe_refl casesKey r
      · exact (List.pairwise_cons.mp hpw).1 r hmem

/-- Concrete instance: two full 13-cell country rows; the larger
`Cases` value ends up first and becomes `total_row`. -/
theorem get_table_sorted_total_witness :
    get_table [⟨["A", "5", "", "", "", "", "", "", "", "", "", "", "x"], none, []⟩,
               ⟨["B", "9", "", "", "", "", "", "", "", "", "", "", "x"], none, []⟩] =
      .ok [[.str "B", .int 9, .null, .null, .null, .null, .null, .null, .null, .null,
            .null, .null, .str "x", .null, .null],
           [.str "A", .int 5, .null, .null, .null, .null, .null, .null, .null, .null,
            .null, .null, .str "x", .null, .null]] ∧
    total_row [[.str "B", .int 9, .null, .null, .null, .null, .null, .null, .null, .null,
                .null, .null, .str "x", .null, .null],
               [.str "A", .int 5, .null, .null, .null, .null, .null, .null, .null, .null,
                .null, .null, .str "x", .null, .null]] =
      some [.str "B", .int 9, .null, .null, .null, .null, .null, .null, .null, .null,
            .null, .null, .str "x", .null, .null] ∧
    ([[Value.str "B", .int 9, .null, .null, .null, .null, .null, .null, .null, .null,
       .null, .null, .str "x", .null, .null],
      [.str "A", .int 5, .null, .null, .null, .null, .null, .null, .null, .null,
       .null, .null, .str "x", .null, .null]] : List Row).Pairwise
      (fun a b => keyLe casesKey b a = true) := by
  refine ⟨rfl, rfl, ?_⟩
  exact (get_table_sorted_total
    [⟨["A", "5", "", "", "", "", "", "", "", "", "", "", "x"], none, []⟩,
     ⟨["B", "9", "", "", "", "", "", "", "", "", "", "", "x"], none, []⟩]
    [[.str "B", .int 9, .null, .null, .null, .null, .null, .null, .null, .null,
      .null, .null, .str "x", .null, .null],
     [.str "A", .int 5, .null, .null, .null, .null, .null, .null, .null, .null,
      .null, .null, .str "x", .null, .null]] rfl).1
